import Mathlib

/-!
# Verification of the TTravels speech-to-text service wrapper

Shallow embedding of `src/speech_to_text.py` and proofs about it.

Modelling conventions:
* Python dictionaries produced by the whisper model are embedded as
  structures whose fields are `Option`-typed exactly where the source reads
  them with `dict.get` (so an absent key is `none`); a field read with
  `dict[...]` raises `KeyError` when absent, embedded as an error value.
* Python floats are embedded as rationals (`ℚ`).
* The external whisper capability (`whisper.load_model`, `Model.transcribe`)
  and `os.path.exists` are parameters of the embedded operations.
* Exceptions are embedded as `Except STTError`; the filesystem as a list of
  existing paths, passed explicitly.
* To reason about "model work happens before/after X" the transcription
  operations also return the chronological list of model events
  (`modelLoad`, `modelInvoke`) they performed.
-/

namespace SpeechToText

/-- One whisper segment, as far as `speech_to_text.py` reads it: the source
only ever accesses the keys `end` (via `segment.get("end", 0)`) and
`no_speech_prob` (via `"no_speech_prob" in segment` / `segment["no_speech_prob"]`),
so only those two (possibly absent) entries are embedded.  `end` is a Lean
keyword, hence the field name `end_`. -/
structure Segment where
  end_ : Option ℚ
  no_speech_prob : Option ℚ
deriving Repr, DecidableEq

/-- One iteration of the `for segment in segments` loop in
`SpeechToTextService._calculate_confidence`: if the segment carries
`no_speech_prob`, add `1 - no_speech_prob` to the running total and bump the
count, otherwise leave both untouched. -/
def confStep (acc : ℚ × ℕ) (segment : Segment) : ℚ × ℕ :=
  match segment.no_speech_prob with
  | some p => (acc.1 + (1 - p), acc.2 + 1)
  | none => acc

/-- `SpeechToTextService._calculate_confidence`: returns `0.0` for an empty
segment list, otherwise accumulates `total_confidence` and `count` over the
segments that carry `no_speech_prob` and returns `total_confidence / count`
when `count > 0`, else `0.0`. -/
def calculate_confidence (segments : List Segment) : ℚ :=
  if segments = [] then 0
  else
    let acc := segments.foldl confStep (0, 0)
    if acc.2 > 0 then acc.1 / (acc.2 : ℚ) else 0

lemma foldl_confStep (segments : List Segment) (t : ℚ) (c : ℕ) :
    segments.foldl confStep (t, c) =
      (t + (((segments.filterMap Segment.no_speech_prob).map (fun p => 1 - p)).sum),
        c + (segments.filterMap Segment.no_speech_prob).length) := by
  induction segments generalizing t c with
  | nil => simp
  | cons s rest ih =>
    cases h : s.no_speech_prob with
    | none =>
      simp only [List.foldl_cons, confStep, h, List.filterMap_cons_none,
        List.filterMap_cons]
      exact ih t c
    | some p =>
      simp only [List.foldl_cons, confStep, h, List.filterMap_cons]
      rw [ih]
      simp only [List.map_cons, List.sum_cons, List.length_cons, Prod.mk.injEq]
      constructor
      · ring
      · omega

/-- C1: the confidence returned by `_calculate_confidence` is the unweighted
arithmetic mean of `1 - no_speech_prob` over exactly the segments that carry
the `no_speech_prob` field, and `0` when no segment carries the field
(including the empty list); segments lacking the field contribute to neither
the sum nor the count. -/
theorem calculate_confidence_spec (segments : List Segment) :
    calculate_confidence segments =
      if (segments.filterMap Segment.no_speech_prob) = [] then 0
      else (((segments.filterMap Segment.no_speech_prob).map (fun p => 1 - p)).sum)
             / ((segments.filterMap Segment.no_speech_prob).length : ℚ) := by
  unfold calculate_confidence
  cases segments with
  | nil => simp
  | cons s rest =>
    rw [if_neg (List.cons_ne_nil s rest)]
    rw [foldl_confStep]
    simp only [zero_add]
    by_cases h : ((s :: rest).filterMap Segment.no_speech_prob) = []
    · rw [h]
      simp
    · rw [if_neg h, if_pos (List.length_pos.mpr h)]

/-- Python `str.strip()` with no argument, on the character list: drop
whitespace from the front, then from the back. -/
def stripChars (cs : List Char) : List Char :=
  ((cs.dropWhile Char.isWhitespace).reverse.dropWhile Char.isWhitespace).reverse

/-- Python `s.strip()`: remove leading and trailing whitespace. -/
def pyStrip (s : String) : String := ⟨stripChars s.data⟩

/-- A value of the heterogeneous Python options dict built in
`transcribe_audio`: the values used are strings (`"transcribe"`, a language
code) and the boolean `False` for `fp16`. -/
inductive OptValue where
  | str (s : String)
  | bool (b : Bool)
deriving Repr, DecidableEq

/-- The options dict as first written in `transcribe_audio`:
`{"language": language, "task": "transcribe", "fp16": False}`, with `None`
values still present (`language` is `None` when no hint is given). -/
def optionsRaw (language : Option String) : List (String × Option OptValue) :=
  [("language", language.map OptValue.str),
   ("task", some (OptValue.str "transcribe")),
   ("fp16", some (OptValue.bool false))]

/-- The comprehension `{k: v for k, v in options.items() if v is not None}`:
entries whose value is `None` are dropped. -/
def buildOptions (language : Option String) : List (String × OptValue) :=
  (optionsRaw language).filterMap (fun kv => kv.2.map (fun v => (kv.1, v)))

/-- C4: the options passed to the model always contain `task = "transcribe"`
and `fp16 = False`; with no language hint there is no `language` key at all
(keys are exactly `task`, `fp16`), while an explicit hint — including the
empty string — is forwarded as the value of the `language` key, so the
auto-detect case is distinguishable from an explicit empty string. -/
theorem buildOptions_spec (language : Option String) :
    ("task", OptValue.str "transcribe") ∈ buildOptions language ∧
    ("fp16", OptValue.bool false) ∈ buildOptions language ∧
    (buildOptions language).lookup "language" = language.map OptValue.str ∧
    (buildOptions none).map Prod.fst = ["task", "fp16"] ∧
    (∀ s, (buildOptions (some s)).map Prod.fst = ["language", "task", "fp16"]) ∧
    (buildOptions (some "")).lookup "language" = some (OptValue.str "") ∧
    buildOptions none ≠ buildOptions (some "") := by
  cases language <;>
    simp [buildOptions, optionsRaw, List.lookup]

/-- The whisper result dict as far as `speech_to_text.py` reads it:
`result["text"]` (raises `KeyError` when absent, hence `Option` here),
`result.get("language", "unknown")` and `result.get("segments", ...)`. -/
structure WhisperResult where
  text : Option String
  language : Option String
  segments : Option (List Segment)
deriving Repr, DecidableEq

/-- The metadata dict built by `transcribe_audio`.  The source keys are
`language`, `duration`, `segments` (a count) and `confidence`. -/
structure Metadata where
  language : String
  duration : ℚ
  segments : ℕ
  confidence : ℚ
deriving Repr, DecidableEq

/-- The exceptions `speech_to_text.py` can raise or propagate, embedded as
error values: `FileNotFoundError` from the path check, `KeyError` from
`result["text"]`, a model-load failure, a model-inference failure, and
`AttributeError` from calling a method on `None`. -/
inductive STTError where
  | fileNotFoundError (path : String)
  | keyError (key : String)
  | loadError
  | transcriptionError
  | attributeError (name : String)
deriving Repr, DecidableEq

/-- `result.get("segments", [{}])[-1].get("end", 0) if result.get("segments") else 0`:
the Python condition is truthy only when the `segments` key is present with a
non-empty list; then the last segment's `end` is read with default `0`. -/
def durationOf (result : WhisperResult) : ℚ :=
  match result.segments with
  | none => 0
  | some segs =>
    match segs.getLast? with
    | none => 0
    | some s => s.end_.getD 0

/-- The `metadata` dict assembled in `transcribe_audio` from the model
result. -/
def metadataOf (result : WhisperResult) : Metadata :=
  { language := result.language.getD "unknown"
    duration := durationOf result
    segments := (result.segments.getD []).length
    confidence := calculate_confidence (result.segments.getD []) }

/-- The opaque whisper model capability: `model.transcribe(file_path, **options)`,
which may raise. -/
def Model : Type :=
  String → List (String × OptValue) → Except STTError WhisperResult

/-- C3 needs the order of model work relative to the path check, so the
embedded operations also report which model events they performed, in
chronological order. -/
inductive Event where
  | modelLoad
  | modelInvoke
deriving Repr, DecidableEq

/-- The mutable state of a `SpeechToTextService` instance: `self.model_size`
and `self.model` (which is `None` until `_load_model` has run). -/
structure Service where
  model_size : String
  model : Option Model

/-- Python truthiness of an optional string: `None` and `""` are falsy. -/
def pyTruthy (s : Option String) : Bool :=
  match s with
  | some x => x ≠ ""
  | none => false

/-- `model_size or "tiny"` from `__init__`. -/
def pyOrTiny (model_size : Option String) : String :=
  match model_size with
  | some s => if s = "" then "tiny" else s
  | none => "tiny"

/-- The `model_size` resolution in `SpeechToTextService.__init__`:
`env_model if env_model else (model_size or "tiny")`, where `env_model` is
`os.getenv("WHISPER_MODEL")` (hence `none` when the variable is unset). -/
def init_model_size (env_model : Option String) (model_size : Option String) : String :=
  if pyTruthy env_model then env_model.getD "" else pyOrTiny model_size

/-- `SpeechToTextService.__init__`: resolve the size and leave
`self.model = None` (no model is loaded at construction time). -/
def init_service (env_model : Option String) (model_size : Option String) : Service :=
  { model_size := init_model_size env_model model_size, model := none }

/-- `SpeechToTextService._load_model`: calls `whisper.load_model(self.model_size)`
(the external `loader`), storing the result in `self.model`; a loader
exception is re-raised after logging, leaving the state unchanged. -/
def load_model (loader : String → Except STTError Model) (svc : Service) :
    Except STTError Service :=
  match loader svc.model_size with
  | .error e => .error e
  | .ok m => .ok { svc with model := some m }

/-- `SpeechToTextService.transcribe_audio`, instrumented with the model
events it performs: check `os.path.exists`, build the options, call
`self.model.transcribe(file_path, **options)` (an `AttributeError` if
`self.model` is `None`), then normalize `result["text"]` and assemble the
metadata.  Every exception propagates (the `except` clause re-raises). -/
def Service.transcribe_audio_ev (svc : Service) (pathExists : String → Bool)
    (file_path : String) (language : Option String) :
    Except STTError (String × Metadata) × List Event :=
  if pathExists file_path = false then
    (.error (.fileNotFoundError file_path), [])
  else
    match svc.model with
    | none => (.error (.attributeError "transcribe"), [])
    | some m =>
      match m file_path (buildOptions language) with
      | .error e => (.error e, [.modelInvoke])
      | .ok result =>
        match result.text with
        | none => (.error (.keyError "text"), [.modelInvoke])
        | some t => (.ok (pyStrip t, metadataOf result), [.modelInvoke])

/-- `SpeechToTextService.transcribe_audio`, result only. -/
def Service.transcribe_audio (svc : Service) (pathExists : String → Bool)
    (file_path : String) (language : Option String) :
    Except STTError (String × Metadata) :=
  (svc.transcribe_audio_ev pathExists file_path language).1

/-- A concrete segment used to exercise the definitions. -/
def demoSegment : Segment := { end_ := some 5, no_speech_prob := some (1/10) }

/-- A concrete model result used to exercise the definitions. -/
def demoResult : WhisperResult :=
  { text := some "  hello  ", language := some "en", segments := some [demoSegment] }

/-- A concrete model capability returning `demoResult` on every input. -/
def demoModel : Model := fun _ _ => .ok demoResult

/-- A service whose model is already loaded (`demoModel`). -/
def demoService : Service := { model_size := "tiny", model := some demoModel }

/-- A path-existence oracle on which every path exists. -/
def alwaysExists : String → Bool := fun _ => true

/-- A concrete model result with empty recognized text and no optional keys. -/
def demoEmptyResult : WhisperResult :=
  { text := some "", language := none, segments := none }

/-- A model capability returning `demoEmptyResult` on every input. -/
def demoEmptyModel : Model := fun _ _ => .ok demoEmptyResult

/-- A service whose model is already loaded (`demoEmptyModel`). -/
def demoEmptyService : Service := { model_size := "tiny", model := some demoEmptyModel }

/-- C2: on a successful transcription (path exists, model returns a result
carrying the `text` key), the returned text is the model text trimmed, the
metadata's segment count is the length of the model's segment list, its
language is the model-reported language defaulting to `"unknown"`, and its
duration is the `end` offset of the last segment when the segment list is
non-empty, else `0`. -/
theorem transcribe_audio_normalization (svc : Service) (m : Model)
    (pathExists : String → Bool) (file_path : String) (language : Option String)
    (result : WhisperResult) (t : String)
    (hm : svc.model = some m)
    (hex : pathExists file_path = true)
    (hres : m file_path (buildOptions language) = .ok result)
    (htext : result.text = some t) :
    svc.transcribe_audio pathExists file_path language = .ok (pyStrip t, metadataOf result) ∧
    (metadataOf result).segments = (result.segments.getD []).length ∧
    (metadataOf result).language = result.language.getD "unknown" ∧
    (result.language = none → (metadataOf result).language = "unknown") ∧
    (∀ segs s d, result.segments = some segs → segs.getLast? = some s →
        s.end_ = some d → (metadataOf result).duration = d) ∧
    ((result.segments = none ∨ result.segments = some []) →
        (metadataOf result).duration = 0) := by
  refine ⟨?_, rfl, rfl, ?_, ?_, ?_⟩
  · simp [Service.transcribe_audio, Service.transcribe_audio_ev, hex, hm, hres, htext]
  · intro h
    simp [metadataOf, h]
  · intro segs s d hsegs hlast hend
    simp [metadataOf, durationOf, hsegs, hlast, hend]
  · rintro (hs | hs) <;> simp [metadataOf, durationOf, hs]

/-- Witness for C2 at a concrete input. -/
theorem transcribe_audio_normalization_witness :
    demoService.transcribe_audio alwaysExists "a.wav" none =
      .ok ("hello", { language := "en", duration := 5, segments := 1, confidence := 9/10 }) := by
  have h := transcribe_audio_normalization demoService demoModel alwaysExists
    "a.wav" none demoResult "  hello  " rfl rfl rfl rfl
  rw [h.1]
  rw [show pyStrip "  hello  " = "hello" from by decide]
  have hmeta : metadataOf demoResult =
      { language := "en", duration := 5, segments := 1, confidence := 9/10 } := by
    simp only [metadataOf, durationOf, calculate_confidence, confStep,
      demoResult, demoSegment, Metadata.mk.injEq]
    norm_num [confStep]
  rw [hmeta]

/-- C8: whenever the model result carries the (per the model contract,
always-present) `text` key, the operation succeeds with that text trimmed —
the text component is a total `String`, never an absent value — and in
particular an empty recognized text yields the empty string rather than a
failure. -/
theorem transcribe_text_total (svc : Service) (m : Model)
    (pathExists : String → Bool) (file_path : String) (language : Option String)
    (result : WhisperResult) (s : String)
    (hm : svc.model = some m)
    (hex : pathExists file_path = true)
    (hres : m file_path (buildOptions language) = .ok result)
    (htext : result.text = some s) :
    svc.transcribe_audio pathExists file_path language = .ok (pyStrip s, metadataOf result) ∧
    (s = "" → svc.transcribe_audio pathExists file_path language
        = .ok ("", metadataOf result)) := by
  have h : svc.transcribe_audio pathExists file_path language
      = .ok (pyStrip s, metadataOf result) := by
    simp [Service.transcribe_audio, Service.transcribe_audio_ev, hex, hm, hres, htext]
  refine ⟨h, ?_⟩
  intro hs
  rw [hs] at h
  rwa [show pyStrip "" = "" from by decide] at h

/-- Witness for C8 at a concrete input: empty recognized text yields a
successful result with empty text. -/
theorem transcribe_text_total_witness :
    demoEmptyService.transcribe_audio alwaysExists "b.wav" none =
      .ok ("", { language := "unknown", duration := 0, segments := 0, confidence := 0 }) := by
  have h := (transcribe_text_total demoEmptyService demoEmptyModel alwaysExists
    "b.wav" none demoEmptyResult "" rfl rfl rfl rfl).2 rfl
  rw [h]
  have hmeta : metadataOf demoEmptyResult =
      { language := "unknown", duration := 0, segments := 0, confidence := 0 } := by
    simp [metadataOf, durationOf, calculate_confidence, demoEmptyResult]
  rw [hmeta]

/-- C10: the `model_size` resolution of `__init__`: a non-empty
`WHISPER_MODEL` environment value overrides any explicit argument; the
explicit argument is used only when the environment value is unset or empty;
when both are unset/empty the size is `"tiny"`. -/
theorem init_model_size_spec (env_model model_size : Option String) :
    (∀ e, env_model = some e → e ≠ "" → init_model_size env_model model_size = e) ∧
    ((env_model = none ∨ env_model = some "") →
      ∀ a, model_size = some a → a ≠ "" → init_model_size env_model model_size = a) ∧
    ((env_model = none ∨ env_model = some "") →
      (model_size = none ∨ model_size = some "") →
      init_model_size env_model model_size = "tiny") := by
  refine ⟨?_, ?_, ?_⟩
  · intro e he hne
    subst he
    simp [init_model_size, pyTruthy, hne]
  · rintro (he | he) a ha hna <;> subst he <;> subst ha <;>
      simp [init_model_size, pyTruthy, pyOrTiny, hna]
  · rintro (he | he) (ha | ha) <;> subst he <;> subst ha <;>
      simp [init_model_size, pyTruthy, pyOrTiny]

/-- Witness for C10 at concrete inputs: a non-empty environment value wins,
an empty one defers to the argument, and both empty/absent give `"tiny"`. -/
theorem init_model_size_spec_witness :
    init_model_size (some "base") (some "large") = "base" ∧
    init_model_size (some "") (some "large") = "large" ∧
    init_model_size none none = "tiny" :=
  ⟨(init_model_size_spec (some "base") (some "large")).1 "base" rfl (by decide),
   (init_model_size_spec (some "") (some "large")).2.1 (Or.inr rfl) "large" rfl (by decide),
   (init_model_size_spec none none).2.2 (Or.inl rfl) (Or.inl rfl)⟩

/-- `os.getenv("WHISPER_MODEL", "tiny")` as used in `_LazySTT._ensure`. -/
def getenv_tiny (env_model : Option String) : String :=
  env_model.getD "tiny"

/-- `_LazySTT._ensure`, instrumented with the model events performed: when
`self._service is None`, construct a `SpeechToTextService` with the env-derived
model name and run `_load_model` (one `modelLoad` event); a load failure
propagates and `self._service` is left as `None`; on success the service is
stored.  When a service is already present nothing happens. -/
def ensure (loader : String → Except STTError Model) (env_model : Option String)
    (st : Option Service) : Except STTError Unit × Option Service × List Event :=
  match st with
  | some svc => (.ok (), some svc, [])
  | none =>
    let model_name := getenv_tiny env_model
    let svc := init_service env_model (some model_name)
    match load_model loader svc with
    | .error e => (.error e, none, [.modelLoad])
    | .ok svc' => (.ok (), some svc', [.modelLoad])

/-- `stt_service.transcribe_audio(...)` through the `_LazySTT` proxy:
`__getattr__` first runs `_ensure()` (so an unloaded handle loads the model
before anything else), then forwards to the underlying service's
`transcribe_audio`.  Returns the outcome, the updated handle state and the
chronological model events. -/
def lazy_transcribe (loader : String → Except STTError Model)
    (env_model : Option String) (pathExists : String → Bool) (st : Option Service)
    (file_path : String) (language : Option String) :
    Except STTError (String × Metadata) × Option Service × List Event :=
  match ensure loader env_model st with
  | (.error e, st', evs) => (.error e, st', evs)
  | (.ok _, st', evs) =>
    match st' with
    | none => (.error (.attributeError "transcribe_audio"), none, evs)
    | some svc =>
      let (res, evs2) := svc.transcribe_audio_ev pathExists file_path language
      (res, some svc, evs ++ evs2)

/-- The module-level legacy `transcribe_audio(file_path)`: calls
`stt_service.transcribe_audio(file_path)` (through the lazy proxy, with no
language argument) and returns only the text component. -/
def transcribe_audio (loader : String → Except STTError Model)
    (env_model : Option String) (pathExists : String → Bool) (st : Option Service)
    (file_path : String) :
    Except STTError String × Option Service × List Event :=
  let r := lazy_transcribe loader env_model pathExists st file_path none
  (r.1.map Prod.fst, r.2.1, r.2.2)

/-- A loader that always fails (e.g. out of memory). -/
def failLoader : String → Except STTError Model := fun _ => .error .loadError

/-- A loader that always succeeds, returning `demoModel`. -/
def demoLoader : String → Except STTError Model := fun _ => .ok demoModel

/-- A path-existence oracle on which no path exists. -/
def neverExists : String → Bool := fun _ => false

lemma ensure_none_of_loader_ok (loader : String → Except STTError Model)
    (env_model : Option String) (m : Model)
    (hm : loader (init_model_size env_model (some (getenv_tiny env_model))) = .ok m) :
    ensure loader env_model none =
      (.ok (), some { model_size := init_model_size env_model (some (getenv_tiny env_model)),
                      model := some m }, [Event.modelLoad]) := by
  simp [ensure, load_model, init_service, hm]

/-- C6: `_ensure` semantics.  If the loader fails, the failure propagates,
the handle stays unloaded (`none`, no partial state), and the next call
performs the load again (its event list again contains `modelLoad`); if the
loader succeeds the service is stored with the model set; once a service is
present, `_ensure` is a no-op that performs no load event. -/
theorem ensure_spec (loader : String → Except STTError Model)
    (env_model : Option String) :
    (∀ e, loader (init_model_size env_model (some (getenv_tiny env_model))) = .error e →
        ensure loader env_model none = (.error e, none, [Event.modelLoad]) ∧
        ensure loader env_model (ensure loader env_model none).2.1
          = (.error e, none, [Event.modelLoad])) ∧
    (∀ m, loader (init_model_size env_model (some (getenv_tiny env_model))) = .ok m →
        ensure loader env_model none =
          (.ok (), some { model_size := init_model_size env_model (some (getenv_tiny env_model)),
                          model := some m }, [Event.modelLoad])) ∧
    (∀ svc, ensure loader env_model (some svc) = (.ok (), some svc, [])) := by
  refine ⟨?_, ?_, ?_⟩
  · intro e he
    have h1 : ensure loader env_model none = (.error e, none, [Event.modelLoad]) := by
      simp [ensure, load_model, init_service, he]
    refine ⟨h1, ?_⟩
    rw [h1]
    exact h1
  · intro m hm
    exact ensure_none_of_loader_ok loader env_model m hm
  · intro svc
    rfl

/-- Witness for C6 at concrete inputs: a failing loader propagates and leaves
the handle unloaded; an already-loaded handle performs no load. -/
theorem ensure_spec_witness :
    ensure failLoader none none = (.error .loadError, none, [Event.modelLoad]) ∧
    ensure failLoader none (some demoService) = (.ok (), some demoService, []) :=
  ⟨((ensure_spec failLoader none).1 .loadError rfl).1,
   (ensure_spec failLoader none).2.2 demoService⟩

/-- C3 as stated is false: calling `transcribe_audio` on a *missing* path
through the *unloaded* shared lazy handle performs model work first.  With a
succeeding loader the call still fails with `FileNotFoundError`, but the
event trace is `[modelLoad]`: the model is loaded before the path check.
With a failing loader the call on a missing path does not even fail with
`FileNotFoundError` but with the load error. -/
theorem lazy_missing_path_counterexample :
    (lazy_transcribe demoLoader none neverExists none "missing.wav" none).1
        = .error (.fileNotFoundError "missing.wav") ∧
    (lazy_transcribe demoLoader none neverExists none "missing.wav" none).2.2
        = [Event.modelLoad] ∧
    (lazy_transcribe failLoader none neverExists none "missing.wav" none).1
        = .error .loadError := by
  refine ⟨rfl, rfl, rfl⟩

/-- C3 amended: on a nonexistent path, provided the shared lazy handle is
already loaded or its implicit load succeeds, the call fails with
`FileNotFoundError` and the model is never *invoked*; when the handle is
already loaded there is no model work at all before the failure.  (When the
handle is unloaded, however, `__getattr__` triggers the model *load* before
the path check, and a load failure preempts the `FileNotFoundError`.) -/
theorem lazy_missing_path_amended (loader : String → Except STTError Model)
    (env_model : Option String) (pathExists : String → Bool) (st : Option Service)
    (file_path : String) (language : Option String)
    (hp : pathExists file_path = false)
    (hload : st = none →
      ∃ m, loader (init_model_size env_model (some (getenv_tiny env_model))) = .ok m) :
    (lazy_transcribe loader env_model pathExists st file_path language).1
        = .error (.fileNotFoundError file_path) ∧
    Event.modelInvoke ∉
      (lazy_transcribe loader env_model pathExists st file_path language).2.2 ∧
    (∀ svc, st = some svc →
      (lazy_transcribe loader env_model pathExists st file_path language).2.2 = []) := by
  cases st with
  | some svc =>
    have hev : svc.transcribe_audio_ev pathExists file_path language
        = (.error (.fileNotFoundError file_path), []) := by
      simp [Service.transcribe_audio_ev, hp]
    refine ⟨?_, ?_, ?_⟩ <;>
      simp [lazy_transcribe, ensure, hev]
  | none =>
    obtain ⟨m, hm⟩ := hload rfl
    have hens := ensure_none_of_loader_ok loader env_model m hm
    have hev : Service.transcribe_audio_ev
        { model_size := init_model_size env_model (some (getenv_tiny env_model)),
          model := some m } pathExists file_path language
        = (.error (.fileNotFoundError file_path), []) := by
      simp [Service.transcribe_audio_ev, hp]
    refine ⟨?_, ?_, ?_⟩
    · simp [lazy_transcribe, hens, hev]
    · simp [lazy_transcribe, hens, hev]
    · intro svc hsvc
      exact absurd hsvc (by simp)

/-- Witness for C3's amended theorem at a concrete input: an already-loaded
handle fails with `FileNotFoundError` and performs no model work. -/
theorem lazy_missing_path_amended_witness :
    (lazy_transcribe demoLoader none neverExists (some demoService) "missing.wav" none).1
        = .error (.fileNotFoundError "missing.wav") ∧
    (lazy_transcribe demoLoader none neverExists (some demoService) "missing.wav" none).2.2
        = [] := by
  have h := lazy_missing_path_amended demoLoader none neverExists (some demoService)
    "missing.wav" none rfl (fun hc => absurd hc (by simp))
  exact ⟨h.1, h.2.2 demoService rfl⟩

/-- C9: the legacy module-level entry point returns exactly the text
component of the full lazy-handle call with no language hint: the outcome is
the componentwise image under `Prod.fst`, so it succeeds with `t` exactly
when the full call succeeds with `(t, metadata)` for some metadata, fails
with exactly the same errors, and leaves the same handle state and event
trace — no independent behavior. -/
theorem transcribe_audio_legacy_spec (loader : String → Except STTError Model)
    (env_model : Option String) (pathExists : String → Bool) (st : Option Service)
    (file_path : String) :
    (transcribe_audio loader env_model pathExists st file_path).1
      = (lazy_transcribe loader env_model pathExists st file_path none).1.map Prod.fst ∧
    (transcribe_audio loader env_model pathExists st file_path).2
      = (lazy_transcribe loader env_model pathExists st file_path none).2 ∧
    (∀ e, (transcribe_audio loader env_model pathExists st file_path).1 = .error e ↔
      (lazy_transcribe loader env_model pathExists st file_path none).1 = .error e) ∧
    (∀ t, (transcribe_audio loader env_model pathExists st file_path).1 = .ok t ↔
      ∃ md, (lazy_transcribe loader env_model pathExists st file_path none).1
        = .ok (t, md)) := by
  refine ⟨rfl, rfl, ?_, ?_⟩
  · intro e
    unfold transcribe_audio
    cases h : (lazy_transcribe loader env_model pathExists st file_path none).1 with
    | error e2 => simp [h, Except.map]
    | ok r => simp [h, Except.map]
  · intro t
    unfold transcribe_audio
    cases h : (lazy_transcribe loader env_model pathExists st file_path none).1 with
    | error e2 => simp [h, Except.map]
    | ok r =>
      simp only [h, Except.map, Except.ok.injEq]
      constructor
      · intro ht
        exact ⟨r.2, by rw [← ht]⟩
      · rintro ⟨md, hmd⟩
        rw [hmd]

/-- `os.unlink(p)` on a filesystem embedded as the list of existing paths:
removes the path if present, raises `OSError` (here: `.error ()`) if not. -/
def unlink (fs : List String) (p : String) : Except Unit (List String) :=
  if p ∈ fs then .ok (fs.filter (fun q => q ≠ p)) else .error ()

/-- `SpeechToTextService.transcribe_audio_file`: create the named temporary
file (adding `temp` to the filesystem, with the upload's bytes written and
flushed), run the transcription body (`transcr`, an arbitrary
filesystem-transforming computation standing for
`self.transcribe_audio(temp_file.name, language)`), and in the `finally`
block `os.unlink` the temporary file, swallowing an `OSError` from the
deletion (`except OSError: pass`).  The body's outcome — success or
exception — is returned unchanged. -/
def transcribe_audio_file (fs : List String) (temp : String)
    (transcr : List String → Except STTError (String × Metadata) × List String) :
    Except STTError (String × Metadata) × List String :=
  let fs1 := temp :: fs
  let r := transcr fs1
  let fs3 := match unlink r.2 temp with
             | .ok fs' => fs'
             | .error _ => r.2
  (r.1, fs3)

/-- C5: whatever the transcription body does — succeed or raise, and whatever
it does to the filesystem — `transcribe_audio_file` returns exactly the
body's outcome (a deletion failure never masks or replaces it), and the
temporary file does not exist afterwards. -/
theorem transcribe_audio_file_cleanup (fs : List String) (temp : String)
    (transcr : List String → Except STTError (String × Metadata) × List String) :
    (transcribe_audio_file fs temp transcr).1 = (transcr (temp :: fs)).1 ∧
    temp ∉ (transcribe_audio_file fs temp transcr).2 := by
  unfold transcribe_audio_file
  refine ⟨rfl, ?_⟩
  by_cases h : temp ∈ (transcr (temp :: fs)).2
  · simp only [unlink, if_pos h]
    intro hmem
    have := List.of_mem_filter hmem
    simp at this
  · simp only [unlink, if_neg h]
    exact h

/-- The shared state of the process-wide `_LazySTT` handle in the race model:
whether `self._service` is set, and how many times the model loader has run. -/
structure Shared where
  service : Option Unit
  loads : ℕ
deriving Repr, DecidableEq

/-- Program counter of one thread running `_ensure`: it is about to perform
the `self._service is None` check (`start`), has observed `None` and is about
to construct/load/store (`willLoad`), or has returned (`done`). -/
inductive PC where
  | start
  | willLoad
  | done
deriving Repr, DecidableEq

/-- One atomic step of a thread running `_LazySTT._ensure`.  The
check-then-act of the source is split at its only interleaving point: the
`None` check, and the construct/load/store sequence (modelled as a single
atomic step, which is *generous* to the code — the real load blocks and
yields, so the real code races at least as much as this model). -/
def threadStep (sh : Shared) (pc : PC) : Shared × PC :=
  match pc with
  | .start =>
    match sh.service with
    | some _ => (sh, .done)
    | none => (sh, .willLoad)
  | .willLoad => ({ service := some (), loads := sh.loads + 1 }, .done)
  | .done => (sh, .done)

/-- Run two threads through `_ensure` under a schedule: `true` steps thread
one, `false` steps thread two.  Returns the final shared state and both
program counters. -/
def run2 (sched : List Bool) (sh : Shared) (pc1 pc2 : PC) : Shared × PC × PC :=
  match sched with
  | [] => (sh, pc1, pc2)
  | b :: rest =>
    if b then
      let s := threadStep sh pc1
      run2 rest s.1 s.2 pc2
    else
      let s := threadStep sh pc2
      run2 rest s.1 pc1 s.2

/-- The fresh shared handle: `self._service = None`, loader never run. -/
def shared0 : Shared := { service := none, loads := 0 }

/-- How many loads a thread at this program counter can still perform. -/
def pcBudget : PC → ℕ
  | .done => 0
  | _ => 1

lemma threadStep_budget (sh : Shared) (pc : PC) :
    (threadStep sh pc).1.loads + pcBudget (threadStep sh pc).2 ≤
      sh.loads + pcBudget pc := by
  cases pc with
  | start =>
    cases h : sh.service <;> simp [threadStep, h, pcBudget]
  | willLoad => simp [threadStep, pcBudget]
  | done => simp [threadStep, pcBudget]

lemma run2_loads_le (sched : List Bool) (sh : Shared) (pc1 pc2 : PC) :
    (run2 sched sh pc1 pc2).1.loads ≤ sh.loads + pcBudget pc1 + pcBudget pc2 := by
  induction sched generalizing sh pc1 pc2 with
  | nil => simp [run2]; omega
  | cons b rest ih =>
    cases b with
    | true =>
      have h := threadStep_budget sh pc1
      calc (run2 (true :: rest) sh pc1 pc2).1.loads
          = (run2 rest (threadStep sh pc1).1 (threadStep sh pc1).2 pc2).1.loads := rfl
        _ ≤ (threadStep sh pc1).1.loads + pcBudget (threadStep sh pc1).2 + pcBudget pc2 :=
            ih _ _ _
        _ ≤ sh.loads + pcBudget pc1 + pcBudget pc2 := by omega
    | false =>
      have h := threadStep_budget sh pc2
      calc (run2 (false :: rest) sh pc1 pc2).1.loads
          = (run2 rest (threadStep sh pc2).1 pc1 (threadStep sh pc2).2).1.loads := rfl
        _ ≤ (threadStep sh pc2).1.loads + pcBudget pc1 + pcBudget (threadStep sh pc2).2 := by
            have := ih (threadStep sh pc2).1 pc1 (threadStep sh pc2).2
            omega
        _ ≤ sh.loads + pcBudget pc1 + pcBudget pc2 := by omega

/-- C7 as stated is false: `_LazySTT._ensure` has no mutual-exclusion guard,
so under the interleaving check₁, check₂, load₁, load₂ of two concurrent
first callers the loader runs twice — the model is loaded twice. -/
theorem race_double_load_counterexample :
    (run2 [true, false, true, false] shared0 PC.start PC.start).1.loads = 2 ∧
    ¬ (run2 [true, false, true, false] shared0 PC.start PC.start).1.loads ≤ 1 := by
  refine ⟨rfl, by decide⟩

/-- C7 amended: there is no mutual-exclusion guard.  Each single caller runs
the loader at most once, so two concurrent first callers perform at most two
loads in total under every schedule, and non-overlapping (serialized)
callers perform exactly one load; but no guard forces the "exactly one load"
outcome for overlapping callers (see the counterexample schedule, where the
load runs twice). -/
theorem race_load_amended (sched : List Bool) :
    (run2 sched shared0 PC.start PC.start).1.loads ≤ 2 ∧
    (run2 [true, true, false, false] shared0 PC.start PC.start).1.loads = 1 := by
  refine ⟨?_, rfl⟩
  have h := run2_loads_le sched shared0 PC.start PC.start
  simpa [shared0, pcBudget] using h

end SpeechToText
